import Mathlib

/-!
Shallow embedding of the `cobalt-aws` S3 wrapper layer (`src/s3/mod.rs`).

The repository is a thin adapter over the AWS SDK:
- `FuturesStreamCompatByteStream` wraps the SDK `ByteStream` as a
  `futures::Stream`, mapping errors through `std::io::Error::other`;
- `FuturesPaginiationStream` wraps a `PaginationStream` as a
  `futures::Stream` by forwarding `poll_next` verbatim;
- `list_objects` builds a `ListObjectsV2` paginator and flattens its pages
  with `TryFlatMap::new(req.send()).flat_map(|x| x.contents.unwrap_or_default())`;
- `get_object` sends a single `GetObject` request and, on success, wraps the
  body in the byte-stream bridge followed by `into_async_read`;
- `get_client` builds a client, rewriting the endpoint when the LocalStack
  override is present.

Streams are modelled by their event traces: a finite stream is the list of
items it yields before terminating, and a single poll is modelled by the
`Poll` type below.  The remote service and the SDK combinators
(`TryFlatMap`, the paginator, `into_async_read`) are the environment; they
are modelled from their documented behaviour, while the definitions named
after functions in `src/s3/mod.rs` are translated from that file.
-/

set_option autoImplicit false

namespace CobaltAws

/-- A chunk of bytes (`bytes::Bytes`), modelled as a list of byte values. -/
abbrev Bytes := List Nat

/-- An error raised by the SDK `ByteStream` while streaming a body.  Its
content is irrelevant to the adapter, which never inspects it; a tag stands
for the concrete error value. -/
structure ByteStreamError where
  tag : Nat
deriving DecidableEq

/-- The error kind of a `std::io::Error`.  The adapter layer only ever
constructs the generic `Other` kind. -/
inductive IOErrorKind where
  | other
deriving DecidableEq

/-- A `std::io::Error`: an error kind together with the boxed source error
that produced it. -/
structure IOError where
  kind : IOErrorKind
  cause : ByteStreamError
deriving DecidableEq

/-- Model of `std::io::Error::other`: wraps an arbitrary error as the cause
of a generic I/O error, erasing its specific type into kind `Other`. -/
def ioErrorOther (e : ByteStreamError) : IOError :=
  { kind := IOErrorKind.other, cause := e }

/-- The result of polling an asynchronous stream once (`task::Poll`). -/
inductive Poll (α : Type) where
  | ready (x : α)
  | pending
deriving DecidableEq

/-- Model of `Poll::map_err` as used on a `Poll<Option<Result<T, E>>>`:
the error inside a ready `Some(Err(..))` is mapped, everything else is
returned untouched. -/
def Poll.mapErrOption {α ε ε2 : Type} (f : ε → ε2) :
    Poll (Option (Except ε α)) → Poll (Option (Except ε2 α))
  | Poll.pending => Poll.pending
  | Poll.ready none => Poll.ready none
  | Poll.ready (some (Except.ok b)) => Poll.ready (some (Except.ok b))
  | Poll.ready (some (Except.error e)) => Poll.ready (some (Except.error (f e)))

/-- Embedding of `FuturesStreamCompatByteStream::poll_next`
(`src/s3/mod.rs`): the wrapped `ByteStream` is polled and the result is
returned through `.map_err(std::io::Error::other)`.  The argument is the
poll result of the wrapped stream; the adapter holds no state of its own,
so its output is a pure function of that single poll result. -/
def FuturesStreamCompatByteStream.poll_next
    (inner : Poll (Option (Except ByteStreamError Bytes))) :
    Poll (Option (Except IOError Bytes)) :=
  inner.mapErrOption ioErrorOther

/-- The byte-stream bridge at the level of whole event traces: draining the
adapter maps each event of the wrapped body through the same error
translation that `poll_next` applies per item. -/
def FuturesStreamCompatByteStream.stream_of
    (body : List (Except ByteStreamError Bytes)) : List (Except IOError Bytes) :=
  body.map (Except.mapError ioErrorOther)

/-- Embedding of `FuturesPaginiationStream::poll_next` (`src/s3/mod.rs`):
`Pin::new(&mut self.0).poll_next(cx)` forwards the wrapped
`PaginationStream`'s poll result unchanged. -/
def FuturesPaginiationStream.poll_next {I : Type} (inner : Poll (Option I)) :
    Poll (Option I) := inner

/-- The pagination bridge at the level of whole event traces: draining the
adapter yields exactly the trace of the wrapped stream. -/
def FuturesPaginiationStream.drain {I : Type} (inner : List I) : List I := inner

/-- An S3 object descriptor as returned by `ListObjectsV2`
(`aws_sdk_s3::types::Object`): both fields are optional in the SDK. -/
structure Object where
  key : Option String
  size : Option Int
deriving DecidableEq

/-- One page of a `ListObjectsV2` response; the `contents` field is absent
(`None`) when the service returns an empty page. -/
structure ListPage where
  contents : Option (List Object)
deriving DecidableEq

/-- The service error of `ListObjectsV2`. -/
inductive ListObjectsV2Error where
  | noSuchBucket
deriving DecidableEq

/-- The service error of `GetObject`. -/
inductive GetObjectError where
  | noSuchBucket
  | noSuchKey
deriving DecidableEq

/-- An SDK-level error: either a structured service error or a lower-level
dispatch (transport) failure. -/
inductive SdkError (E : Type) where
  | serviceError (e : E)
  | dispatchFailure (tag : Nat)
deriving DecidableEq

/-- Model of `aws_smithy_async::future::pagination_stream::TryFlatMap::flat_map`
over the trace of the page stream: each `Ok` page is expanded into one `Ok`
item per entry produced by `map`, in order; the first `Err` page is yielded
as an `Err` item and the stream terminates there, yielding nothing further. -/
def TryFlatMap.flat_map {Page Err Item : Type} (map : Page → List Item) :
    List (Except Err Page) → List (Except Err Item)
  | [] => []
  | Except.ok p :: rest => (map p).map Except.ok ++ TryFlatMap.flat_map map rest
  | Except.error e :: _ => [Except.error e]

/-- The closure `|x| x.contents.unwrap_or_default()` passed to `flat_map`
by `list_objects` (`src/s3/mod.rs`): an absent `contents` field defaults to
the empty list. -/
def contents_or_default (x : ListPage) : List Object :=
  x.contents.getD []

/-- An object stored by the remote service: a key and the body split into
the chunks the service delivers it in. -/
structure StoredObject where
  key : String
  chunks : List Bytes
deriving DecidableEq

/-- The full byte content of a stored object. -/
def StoredObject.bytes (o : StoredObject) : Bytes :=
  o.chunks.flatten

/-- The listing descriptor the service reports for a stored object. -/
def StoredObject.descriptor (o : StoredObject) : Object :=
  { key := some o.key, size := some (Int.ofNat o.bytes.length) }

/-- Modelled from the spec: the remote S3 service state (the service itself
is not part of this repository).  Buckets map names to ordered object
lists; `pageSize` is the page size the service uses when paginating a
listing. -/
structure S3Service where
  buckets : List (String × List StoredObject)
  pageSize : Nat
deriving DecidableEq

/-- Look up a bucket's object list by bucket name. -/
def lookupBucket (svc : S3Service) (bucket : String) : Option (List StoredObject) :=
  (svc.buckets.find? (fun b => b.1 == bucket)).map (fun b => b.2)

/-- Look up a single stored object by bucket and key. -/
def lookupObject (svc : S3Service) (bucket key : String) : Option StoredObject :=
  (lookupBucket svc bucket).bind (fun objs => objs.find? (fun o => o.key == key))

/-- A key matches a filter string when it starts with that literal string
(substring semantics, no implied path separator). -/
def keyStartsWith (key pat : String) : Bool :=
  pat.data.isPrefixOf key.data

/-- The descriptors of the objects matching an optional key filter, in
service order: an object matches when its key starts with the literal
filter string (no filter matches everything). -/
def matchingObjects (objs : List StoredObject) (pfx : Option String) : List Object :=
  (objs.filter (fun o => keyStartsWith o.key (pfx.getD ""))).map StoredObject.descriptor

/-- Split a list into consecutive chunks of size `n` (the last chunk may be
shorter), using the list length as structural fuel. -/
def chunksOfAux {α : Type} (n : Nat) : Nat → List α → List (List α)
  | 0, _ => []
  | _ + 1, [] => []
  | fuel + 1, a :: l => (a :: l).take n :: chunksOfAux n fuel ((a :: l).drop n)

/-- Split a list into consecutive chunks of size `n`. -/
def chunksOf {α : Type} (n : Nat) (l : List α) : List (List α) :=
  chunksOfAux n l.length l

/-- Modelled from the spec: the trace of pages produced by the service for
a `ListObjectsV2` paginator (pagination cursoring is delegated to the
service and not reimplemented here).  A missing bucket produces a single
error page; no matching object produces a single page with `contents`
absent; otherwise the matching descriptors are delivered split into pages
of the service's page size. -/
def servicePages (svc : S3Service) (bucket : String) (pfx : Option String) :
    List (Except (SdkError ListObjectsV2Error) ListPage) :=
  match lookupBucket svc bucket with
  | none => [Except.error (SdkError.serviceError ListObjectsV2Error.noSuchBucket)]
  | some objs =>
    match matchingObjects objs pfx with
    | [] => [Except.ok { contents := none }]
    | ms => (chunksOf svc.pageSize ms).map (fun chunk => Except.ok { contents := some chunk })

/-- Model of `aws_sdk_s3::Client`: the configuration it was built from. -/
structure SdkConfig where
  tag : Nat
deriving DecidableEq

/-- Model of `aws_sdk_s3::config::Builder`: the shared configuration plus
the two settings `get_client` may override. -/
structure Builder where
  config : SdkConfig
  endpointUrl : Option String
  forcePathStyle : Bool
deriving DecidableEq

/-- Model of `Builder::from(shared_config)`: no endpoint override, default
(virtual-hosted) addressing. -/
def Builder.from (c : SdkConfig) : Builder :=
  { config := c, endpointUrl := none, forcePathStyle := false }

/-- Model of `Builder::endpoint_url`. -/
def Builder.endpoint_url (b : Builder) (u : String) : Builder :=
  { b with endpointUrl := some u }

/-- Model of `Builder::force_path_style`. -/
def Builder.force_path_style (b : Builder) (v : Bool) : Builder :=
  { b with forcePathStyle := v }

/-- Model of `Builder::build`: the finished configuration. -/
def Builder.build (b : Builder) : Builder := b

/-- Model of the S3 client: the configuration it was constructed with. -/
structure Client where
  conf : Builder
deriving DecidableEq

/-- Model of `Client::from_conf`. -/
def Client.from_conf (b : Builder) : Client :=
  { conf := b }

/-- The ambient environment consulted by the LocalStack support: the
override hostname variable and the optional override port variable. -/
structure LocalStackEnv where
  localstackHostname : Option String
  edgePort : Option Nat
deriving DecidableEq

/-- An endpoint URI assembled from the LocalStack override. -/
structure Uri where
  host : String
  port : Nat
deriving DecidableEq

/-- Rendering of the endpoint URI as a string. -/
def Uri.to_string (u : Uri) : String :=
  "http://" ++ u.host ++ ":" ++ Nat.repr u.port

/-- A configuration error: the override value could not be parsed into a
valid endpoint URI. -/
inductive ConfigError where
  | invalidUri
deriving DecidableEq

/-- A hostname that parses as the authority of a valid URI. -/
def validHostname (h : String) : Bool :=
  !h.data.isEmpty && h.data.all (fun c => c.isAlphanum || c == '.' || c == '-')

/-- Modelled from the spec: `localstack::get_endpoint_uri` (the `localstack`
module of this repository is not under src/).  If the override hostname
variable is absent there is no redirection; if present, an endpoint URI is
built from it and the override port (defaulting to 4566), and a
configuration error is returned when the value cannot be parsed into a
valid URI. -/
def get_endpoint_uri (env : LocalStackEnv) : Except ConfigError (Option Uri) :=
  match env.localstackHostname with
  | none => Except.ok none
  | some h =>
    if validHostname h then Except.ok (some { host := h, port := env.edgePort.getD 4566 })
    else Except.error ConfigError.invalidUri

/-- Embedding of `get_client` (`src/s3/mod.rs`): start from
`Builder::from(shared_config)`; when `localstack::get_endpoint_uri()?`
yields an endpoint, rewrite the builder with
`.endpoint_url(uri.to_string()).force_path_style(true)`; an error from
`get_endpoint_uri` propagates via `?`; finally build the client. -/
def get_client (env : LocalStackEnv) (shared_config : SdkConfig) :
    Except ConfigError Client :=
  match get_endpoint_uri env with
  | Except.error e => Except.error e
  | Except.ok none => Except.ok (Client.from_conf (Builder.from shared_config).build)
  | Except.ok (some uri) =>
    Except.ok (Client.from_conf
      (((Builder.from shared_config).endpoint_url uri.to_string).force_path_style true).build)

/-- The request value assembled by `list_objects`:
`client.list_objects_v2().bucket(bucket).set_prefix(prefix)`. -/
structure ListObjectsRequest where
  client : Client
  bucket : String
  pfx : Option String
deriving DecidableEq

/-- Embedding of `list_objects` (`src/s3/mod.rs`) at construction time: the
function is synchronous and infallible — it only assembles the paginated
request and wraps it; no service interaction happens until the returned
stream is drained. -/
def list_objects (client : Client) (bucket : String) (pfx : Option String) :
    ListObjectsRequest :=
  { client := client, bucket := bucket, pfx := pfx }

/-- Draining the stream returned by `list_objects` against a service state:
the page trace produced by the paginator is flattened by
`TryFlatMap::new(req.send()).flat_map(|x| x.contents.unwrap_or_default())`
and passed through `FuturesPaginiationStream` (which forwards it
unchanged). -/
def drainListObjects (req : ListObjectsRequest) (svc : S3Service) :
    List (Except (SdkError ListObjectsV2Error) Object) :=
  FuturesPaginiationStream.drain
    (TryFlatMap.flat_map contents_or_default (servicePages svc req.bucket req.pfx))

/-- The successful output of a `GetObject` request: the body as the trace
of the SDK `ByteStream`. -/
structure GetObjectOutput where
  body : List (Except ByteStreamError Bytes)

/-- Model of `futures::TryStreamExt::into_async_read`: an `AsyncBufRead`
handle over an I/O-error stream. -/
structure AsyncBufReader where
  stream : List (Except IOError Bytes)

/-- Wrapping a stream as an `AsyncBufRead` via `into_async_read`. -/
def into_async_read (s : List (Except IOError Bytes)) : AsyncBufReader :=
  { stream := s }

/-- Reading an I/O-error stream to the end: chunks are concatenated until
the stream finishes, and an error stops the read and is returned. -/
def read_to_end : List (Except IOError Bytes) → Except IOError Bytes
  | [] => Except.ok []
  | Except.ok b :: rest => (read_to_end rest).map (fun t => b ++ t)
  | Except.error e :: _ => Except.error e

/-- Fully reading the `AsyncBufRead` handle returned by `get_object`. -/
def AsyncBufReader.readAll (r : AsyncBufReader) : Except IOError Bytes :=
  read_to_end r.stream

/-- Modelled from the spec: the service's response to a single `GetObject`
request — a bucket-not-found or key-not-found service error, or the stored
object's body delivered as its chunk sequence. -/
def getObjectResponse (svc : S3Service) (bucket key : String) :
    Except (SdkError GetObjectError) GetObjectOutput :=
  match lookupBucket svc bucket with
  | none => Except.error (SdkError.serviceError GetObjectError.noSuchBucket)
  | some objs =>
    match objs.find? (fun o => o.key == key) with
    | none => Except.error (SdkError.serviceError GetObjectError.noSuchKey)
    | some o => Except.ok { body := o.chunks.map Except.ok }

/-- Embedding of `get_object` (`src/s3/mod.rs`): exactly one request is
sent; `req.send().await?` returns any error unchanged before a single body
byte is exposed, and on success the body is wrapped in
`FuturesStreamCompatByteStream` followed by `.into_async_read()`. -/
def get_object (resp : Except (SdkError GetObjectError) GetObjectOutput) :
    Except (SdkError GetObjectError) AsyncBufReader :=
  match resp with
  | Except.error e => Except.error e
  | Except.ok out => Except.ok (into_async_read (FuturesStreamCompatByteStream.stream_of out.body))

/-- `get_object` run against a service state: the single request's response
is produced by the service and handled by `get_object`. -/
def get_objectService (svc : S3Service) (bucket key : String) :
    Except (SdkError GetObjectError) AsyncBufReader :=
  get_object (getObjectResponse svc bucket key)

/-! Shared lemmas about the flattening combinator, chunking and reading. -/

/-- Flattening a trace of all-`Ok` pages expands each page in order and
produces only `Ok` items. -/
theorem flat_map_map_ok {Page Err Item : Type} (f : Page → List Item) (pages : List Page) :
    TryFlatMap.flat_map f (pages.map (@Except.ok Err Page))
      = ((pages.map f).flatten).map (@Except.ok Err Item) := by
  induction pages with
  | nil => rfl
  | cons p ps ih => simp [TryFlatMap.flat_map, ih]

/-- Flattening a trace whose first failure follows a run of `Ok` pages
yields the expanded `Ok` items, then the error, then nothing — whatever
follows the error is never reached. -/
theorem flat_map_append_error {Page Err Item : Type} (f : Page → List Item)
    (pages : List Page) (e : Err) (rest : List (Except Err Page)) :
    TryFlatMap.flat_map f (pages.map (@Except.ok Err Page) ++ Except.error e :: rest)
      = ((pages.map f).flatten).map (@Except.ok Err Item) ++ [Except.error e] := by
  induction pages with
  | nil => rfl
  | cons p ps ih => simp [TryFlatMap.flat_map, ih]

/-- Concatenating the chunks produced by `chunksOfAux` recovers the
original list when the chunk size is positive and the fuel suffices. -/
theorem chunksOfAux_flatten {α : Type} (n : Nat) (hn : n ≠ 0) :
    ∀ (fuel : Nat) (l : List α), l.length ≤ fuel → (chunksOfAux n fuel l).flatten = l := by
  intro fuel
  induction fuel with
  | zero =>
    intro l hl
    have hnil : l = [] := List.eq_nil_of_length_eq_zero (Nat.le_zero.mp hl)
    subst hnil
    rfl
  | succ fuel ih =>
    intro l hl
    cases l with
    | nil => rfl
    | cons a t =>
      have hlen : ((a :: t).drop n).length ≤ fuel := by
        rw [List.length_drop]
        have h1 : 1 ≤ n := Nat.one_le_iff_ne_zero.mpr hn
        simp only [List.length_cons] at hl ⊢
        omega
      simp [chunksOfAux, ih _ hlen, List.take_append_drop]

/-- Concatenating the chunks of `chunksOf` recovers the original list when
the chunk size is positive. -/
theorem chunksOf_flatten {α : Type} (n : Nat) (hn : n ≠ 0) (l : List α) :
    (chunksOf n l).flatten = l :=
  chunksOfAux_flatten n hn l.length l (Nat.le_refl _)

/-- Flattening the service's page trace for an existing bucket yields the
matching descriptors, in order, each wrapped in `Ok`. -/
theorem flat_servicePages (svc : S3Service) (bucket : String) (pfx : Option String)
    (objs : List StoredObject) (hb : lookupBucket svc bucket = some objs)
    (hp : svc.pageSize ≠ 0) :
    TryFlatMap.flat_map contents_or_default (servicePages svc bucket pfx)
      = (matchingObjects objs pfx).map Except.ok := by
  cases hms : matchingObjects objs pfx with
  | nil => simp [servicePages, hb, hms, TryFlatMap.flat_map, contents_or_default]
  | cons m ms =>
    simp only [servicePages, hb, hms]
    have h2 : (chunksOf svc.pageSize (m :: ms)).map
        (fun chunk => (Except.ok { contents := some chunk } :
          Except (SdkError ListObjectsV2Error) ListPage))
      = ((chunksOf svc.pageSize (m :: ms)).map
          (fun chunk => ({ contents := some chunk } : ListPage))).map Except.ok := by
      simp [List.map_map]
    rw [h2, flat_map_map_ok, List.map_map]
    have h3 : (contents_or_default ∘ fun chunk : List Object =>
        ({ contents := some chunk } : ListPage)) = id := by
      funext chunk
      rfl
    rw [h3, List.map_id, chunksOf_flatten svc.pageSize hp]

/-- Reading a body of all-successful chunks to the end concatenates the
chunks. -/
theorem read_to_end_map_ok (chunks : List Bytes) :
    read_to_end (chunks.map Except.ok) = Except.ok chunks.flatten := by
  induction chunks with
  | nil => rfl
  | cons b bs ih => simp [read_to_end, ih, Except.map]

/-- The byte-stream bridge leaves a trace of successful chunks untouched. -/
theorem stream_of_map_ok (chunks : List Bytes) :
    FuturesStreamCompatByteStream.stream_of (chunks.map Except.ok) = chunks.map Except.ok := by
  simp [FuturesStreamCompatByteStream.stream_of, List.map_map, Function.comp, Except.mapError]

/-! Concrete fixtures used by the witness theorems. -/

/-- Five objects, so a page size of two forces pagination across three
pages. -/
def witnessObjs : List StoredObject :=
  [ { key := "a", chunks := [[1]] },
    { key := "b", chunks := [[2], [3]] },
    { key := "c", chunks := [[4]] },
    { key := "d", chunks := [] },
    { key := "e", chunks := [[5]] } ]

/-- A service holding one bucket of five objects, paginating two at a
time. -/
def witnessSvc : S3Service :=
  { buckets := [("bkt", witnessObjs)], pageSize := 2 }

/-- A client built from a default configuration. -/
def witnessClient : Client :=
  Client.from_conf (Builder.from { tag := 0 })

/-! Claim theorems. -/

/-- C1: for every bucket and optional key filter, the stream returned by
`list_objects`, when drained to completion without error, yields every
matching object descriptor exactly once, in the order pages and
within-page entries are delivered by the service, across all pages — no
gaps, no duplicates, no reordering — regardless of the service's page
size. -/
theorem list_objects_exhaustive (svc : S3Service) (c : Client) (bucket : String)
    (pfx : Option String) (objs : List StoredObject)
    (hb : lookupBucket svc bucket = some objs) (hp : svc.pageSize ≠ 0) :
    drainListObjects (list_objects c bucket pfx) svc
      = (matchingObjects objs pfx).map Except.ok := by
  unfold drainListObjects FuturesPaginiationStream.drain
  exact flat_servicePages svc bucket pfx objs hb hp

/-- Witness for C1: a five-object bucket paginated two objects at a time
is drained with no gaps, duplicates or reordering. -/
theorem list_objects_exhaustive_witness :
    drainListObjects (list_objects witnessClient "bkt" none) witnessSvc
      = (matchingObjects witnessObjs none).map Except.ok :=
  list_objects_exhaustive witnessSvc witnessClient "bkt" none witnessObjs
    (by decide) (by decide)

/-- C2: a service failure is yielded as an `Err` item at the point
pagination encounters it and terminates the sequence with no further
items; listing a non-existent bucket yields a sequence whose first and
only event is the bucket-not-found error. -/
theorem list_objects_service_error (svc : S3Service) (c : Client) (bucket : String)
    (pfx : Option String) (hb : lookupBucket svc bucket = none) :
    drainListObjects (list_objects c bucket pfx) svc
      = [Except.error (SdkError.serviceError ListObjectsV2Error.noSuchBucket)]
  ∧ ∀ (okPages : List ListPage) (e : SdkError ListObjectsV2Error)
      (rest : List (Except (SdkError ListObjectsV2Error) ListPage)),
      TryFlatMap.flat_map contents_or_default
          (okPages.map Except.ok ++ Except.error e :: rest)
        = ((okPages.map contents_or_default).flatten).map Except.ok ++ [Except.error e] := by
  constructor
  · simp [drainListObjects, FuturesPaginiationStream.drain, list_objects, servicePages, hb,
      TryFlatMap.flat_map]
  · intro okPages e rest
    exact flat_map_append_error contents_or_default okPages e rest

/-- Witness for C2: listing a bucket unknown to the service yields exactly
one bucket-not-found error event. -/
theorem list_objects_service_error_witness :
    drainListObjects (list_objects witnessClient "missing-bucket" none) witnessSvc
      = [Except.error (SdkError.serviceError ListObjectsV2Error.noSuchBucket)] :=
  (list_objects_service_error witnessSvc witnessClient "missing-bucket" none (by decide)).1

/-- C3: on every poll, the byte-stream bridge yields a data chunk
unchanged, wraps a transport error into a single generic I/O error whose
kind is `Other` and whose cause is the original error uninterpreted,
forwards end-of-stream, and forwards a pending poll; its output is a pure
function of the single poll result of the wrapped stream, so no buffering
or retry occurs. -/
theorem stream_bridge_poll_translation (b : Bytes) (e : ByteStreamError) :
    FuturesStreamCompatByteStream.poll_next (Poll.ready (some (Except.ok b)))
      = Poll.ready (some (Except.ok b))
  ∧ FuturesStreamCompatByteStream.poll_next (Poll.ready (some (Except.error e)))
      = Poll.ready (some (Except.error (ioErrorOther e)))
  ∧ (ioErrorOther e).kind = IOErrorKind.other
  ∧ (ioErrorOther e).cause = e
  ∧ FuturesStreamCompatByteStream.poll_next (Poll.ready none) = Poll.ready none
  ∧ FuturesStreamCompatByteStream.poll_next Poll.pending = Poll.pending :=
  ⟨rfl, rfl, rfl, rfl, rfl, rfl⟩

/-- C7: listing an empty bucket, or with a filter matching nothing, yields
an empty sequence that terminates without items and without error; an
empty page — whether its entry list is empty or absent — is valid and
contributes nothing while flattening continues with the rest of the
trace. -/
theorem list_objects_empty_sequence (svc : S3Service) (c : Client) (bucket : String)
    (pfx : Option String) (objs : List StoredObject)
    (hb : lookupBucket svc bucket = some objs)
    (hm : matchingObjects objs pfx = []) :
    drainListObjects (list_objects c bucket pfx) svc = []
  ∧ (∀ (Err : Type) (rest : List (Except Err ListPage)),
      TryFlatMap.flat_map contents_or_default (Except.ok { contents := some [] } :: rest)
        = TryFlatMap.flat_map contents_or_default rest)
  ∧ (∀ (Err : Type) (rest : List (Except Err ListPage)),
      TryFlatMap.flat_map contents_or_default (Except.ok { contents := none } :: rest)
        = TryFlatMap.flat_map contents_or_default rest) := by
  refine ⟨?_, fun _ _ => rfl, fun _ _ => rfl⟩
  simp [drainListObjects, FuturesPaginiationStream.drain, list_objects, servicePages, hb, hm,
    TryFlatMap.flat_map, contents_or_default]

/-- Witness for C7: a filter matching no stored key drains to the empty
sequence. -/
theorem list_objects_empty_sequence_witness :
    drainListObjects (list_objects witnessClient "bkt" (some "zzz")) witnessSvc = [] :=
  (list_objects_empty_sequence witnessSvc witnessClient "bkt" (some "zzz") witnessObjs
    (by decide) (by decide)).1

/-- C8: the pagination bridge is a pure pass-through — every poll result
of the wrapped pagination stream, successful item or service error alike,
is forwarded to the caller unmodified, and a drained trace is forwarded
verbatim; nothing is retried or reinterpreted in this layer. -/
theorem pagination_bridge_passthrough :
    (∀ (I : Type) (p : Poll (Option I)), FuturesPaginiationStream.poll_next p = p)
  ∧ (∀ (I : Type) (trace : List I), FuturesPaginiationStream.drain trace = trace)
  ∧ (∀ (E A : Type) (e : E),
      FuturesPaginiationStream.poll_next
          (Poll.ready (some (Except.error e : Except E A)))
        = Poll.ready (some (Except.error e))) :=
  ⟨fun _ _ => rfl, fun _ _ => rfl, fun _ _ _ => rfl⟩

/-- C9: a listing page whose `contents` field is absent is treated exactly
like a page with an empty entry list — it contributes zero items to the
flattened stream and produces no error. -/
theorem none_contents_defaults_empty (Err : Type)
    (rest : List (Except Err ListPage)) :
    contents_or_default { contents := none } = contents_or_default { contents := some [] }
  ∧ TryFlatMap.flat_map contents_or_default (Except.ok { contents := none } :: rest)
      = TryFlatMap.flat_map contents_or_default (Except.ok { contents := some [] } :: rest) :=
  ⟨rfl, rfl⟩

/-- C10: `list_objects` is a synchronous, infallible constructor — for any
client, bucket and filter it returns the assembled request value without
touching the service, and every failure, including bucket-not-found, is
delivered only as an `Err` item of the drained stream, never at
construction time. -/
theorem list_objects_infallible_construction (c : Client) (bucket : String)
    (pfx : Option String) :
    list_objects c bucket pfx = { client := c, bucket := bucket, pfx := pfx }
  ∧ ∀ svc : S3Service, lookupBucket svc bucket = none →
      Except.error (SdkError.serviceError ListObjectsV2Error.noSuchBucket)
        ∈ drainListObjects (list_objects c bucket pfx) svc := by
  refine ⟨rfl, ?_⟩
  intro svc hb
  simp [drainListObjects, FuturesPaginiationStream.drain, list_objects, servicePages, hb,
    TryFlatMap.flat_map]

/-- Witness for C10: constructing a listing over an unknown bucket
succeeds, and the bucket-not-found failure appears as an item of the
drained stream. -/
theorem list_objects_infallible_construction_witness :
    list_objects witnessClient "no-bucket" none
      = { client := witnessClient, bucket := "no-bucket", pfx := none }
  ∧ Except.error (SdkError.serviceError ListObjectsV2Error.noSuchBucket)
      ∈ drainListObjects (list_objects witnessClient "no-bucket" none) witnessSvc :=
  ⟨(list_objects_infallible_construction witnessClient "no-bucket" none).1,
   (list_objects_infallible_construction witnessClient "no-bucket" none).2 witnessSvc
     (by decide)⟩

/-- C4: `get_object` handles exactly one response: any failure of the
single request — bucket not found, key not found, or a transport-level
dispatch failure — is returned as the underlying error unchanged before
any byte of the body is exposed, with no retry and no partial result; a
readable handle over the body is returned only on a fully successful
response. -/
theorem get_object_single_attempt (svc : S3Service) (bucket key : String) :
    (∀ e, getObjectResponse svc bucket key = Except.error e →
        get_objectService svc bucket key = Except.error e)
  ∧ (lookupBucket svc bucket = none →
      get_objectService svc bucket key
        = Except.error (SdkError.serviceError GetObjectError.noSuchBucket))
  ∧ (∀ objs, lookupBucket svc bucket = some objs →
      objs.find? (fun o => o.key == key) = none →
      get_objectService svc bucket key
        = Except.error (SdkError.serviceError GetObjectError.noSuchKey))
  ∧ (∀ out, getObjectResponse svc bucket key = Except.ok out →
      get_objectService svc bucket key
        = Except.ok (into_async_read (FuturesStreamCompatByteStream.stream_of out.body))) := by
  refine ⟨?_, ?_, ?_, ?_⟩
  · intro e h
    simp [get_objectService, get_object, h]
  · intro hb
    simp [get_objectService, get_object, getObjectResponse, hb]
  · intro objs hb hf
    simp [get_objectService, get_object, getObjectResponse, hb, hf]
  · intro out h
    simp [get_objectService, get_object, h]

/-- Witness for C4: a missing bucket and a missing key each surface the
corresponding service error with no byte stream returned. -/
theorem get_object_single_attempt_witness :
    get_objectService witnessSvc "nope" "k"
      = Except.error (SdkError.serviceError GetObjectError.noSuchBucket)
  ∧ get_objectService witnessSvc "bkt" "zz"
      = Except.error (SdkError.serviceError GetObjectError.noSuchKey) :=
  ⟨(get_object_single_attempt witnessSvc "nope" "k").2.1 (by decide),
   (get_object_single_attempt witnessSvc "bkt" "zz").2.2.1 witnessObjs
     (by decide) (by decide)⟩

/-- C5: when the override hostname is present, the client built by
`get_client` has its endpoint rewritten to the override URI and path-style
addressing enabled; when the override value cannot be parsed into a valid
endpoint URI, `get_client` fails with that configuration error; when the
hostname is absent, no redirection occurs and the client is built from the
shared configuration unchanged. -/
theorem get_client_localstack_override (env : LocalStackEnv) (cfg : SdkConfig) :
    (env.localstackHostname = none →
      get_client env cfg = Except.ok (Client.from_conf (Builder.from cfg)))
  ∧ (∀ u, get_endpoint_uri env = Except.ok (some u) →
      get_client env cfg = Except.ok (Client.from_conf
        (((Builder.from cfg).endpoint_url u.to_string).force_path_style true))
      ∧ ∀ cl, get_client env cfg = Except.ok cl →
          cl.conf.endpointUrl = some u.to_string ∧ cl.conf.forcePathStyle = true)
  ∧ (∀ e, get_endpoint_uri env = Except.error e →
      get_client env cfg = Except.error e)
  ∧ (∀ h, env.localstackHostname = some h → validHostname h = false →
      get_client env cfg = Except.error ConfigError.invalidUri) := by
  refine ⟨?_, ?_, ?_, ?_⟩
  · intro hn
    simp [get_client, get_endpoint_uri, hn, Builder.build]
  · intro u hu
    have hc : get_client env cfg = Except.ok (Client.from_conf
        (((Builder.from cfg).endpoint_url u.to_string).force_path_style true)) := by
      simp [get_client, hu, Builder.build]
    refine ⟨hc, ?_⟩
    intro cl hcl
    have heq : Client.from_conf
        (((Builder.from cfg).endpoint_url u.to_string).force_path_style true) = cl :=
      Except.ok.inj (hc.symm.trans hcl)
    subst heq
    exact ⟨rfl, rfl⟩
  · intro e he
    simp [get_client, he]
  · intro h hh hv
    have he : get_endpoint_uri env = Except.error ConfigError.invalidUri := by
      simp [get_endpoint_uri, hh, hv]
    simp [get_client, he]

/-- Witness for C5: a present override hostname rewrites the endpoint and
enables path-style addressing, an unparsable override fails with a
configuration error, and an absent override leaves the client unchanged. -/
theorem get_client_localstack_override_witness :
    get_client { localstackHostname := none, edgePort := none } { tag := 0 }
      = Except.ok (Client.from_conf (Builder.from { tag := 0 }))
  ∧ get_client { localstackHostname := some "localhost", edgePort := none } { tag := 0 }
      = Except.ok (Client.from_conf (((Builder.from { tag := 0 }).endpoint_url
          (Uri.to_string { host := "localhost", port := 4566 })).force_path_style true))
  ∧ get_client { localstackHostname := some "bad host", edgePort := none } { tag := 0 }
      = Except.error ConfigError.invalidUri :=
  ⟨(get_client_localstack_override { localstackHostname := none, edgePort := none }
      { tag := 0 }).1 rfl,
   ((get_client_localstack_override { localstackHostname := some "localhost", edgePort := none }
      { tag := 0 }).2.1 { host := "localhost", port := 4566 } rfl).1,
   (get_client_localstack_override { localstackHostname := some "bad host", edgePort := none }
      { tag := 0 }).2.2.2 "bad host" rfl rfl⟩

/-- C6: for every existing object, the readable stream returned by
`get_object`, when fully read, yields byte-for-byte the stored object's
bytes, and the byte count read equals the stored size reported in the
object's descriptor — the round trip through the byte-stream bridge
preserves the data exactly. -/
theorem get_object_round_trip (svc : S3Service) (bucket key : String) (o : StoredObject)
    (h : lookupObject svc bucket key = some o) :
    ∃ r, get_objectService svc bucket key = Except.ok r
      ∧ r.readAll = Except.ok o.bytes
      ∧ (StoredObject.descriptor o).size = some (Int.ofNat o.bytes.length) := by
  unfold lookupObject at h
  rcases Option.bind_eq_some.mp h with ⟨objs, hb, hf⟩
  have hf2 : objs.find? (fun oo => oo.key == key) = some o := hf
  refine ⟨into_async_read
      (FuturesStreamCompatByteStream.stream_of (o.chunks.map Except.ok)), ?_, ?_, rfl⟩
  · simp [get_objectService, get_object, getObjectResponse, hb, hf2]
  · simp [AsyncBufReader.readAll, into_async_read, stream_of_map_ok, read_to_end_map_ok,
      StoredObject.bytes]

/-- Witness for C6: fetching a stored two-chunk object reads back exactly
its bytes, whose count matches the descriptor size. -/
theorem get_object_round_trip_witness :
    ∃ r, get_objectService witnessSvc "bkt" "b" = Except.ok r
      ∧ r.readAll = Except.ok (StoredObject.bytes { key := "b", chunks := [[2], [3]] })
      ∧ (StoredObject.descriptor { key := "b", chunks := [[2], [3]] }).size
          = some (Int.ofNat (StoredObject.bytes { key := "b", chunks := [[2], [3]] }).length) :=
  get_object_round_trip witnessSvc "bkt" "b" { key := "b", chunks := [[2], [3]] } (by decide)

end CobaltAws
